import Mathlib

/-!
Verification of the `gha-test-coverage-check` GitHub action.

The development shallowly embeds the TypeScript sources:

* `src/coverage/reporter/reporter.ts` — lcov data aggregation (`Reporter.toReport`);
* `src/coverage/coverage.ts` — the `Coverage` query wrapper;
* `src/settings/settings.ts` — input validation (`Settings.readMinThreshold`);
* `src/gh-reporter/gh-reporter.ts` (the state-machine variant of
  `GithubReporter` with `useCoverage`) — annotation derivation, comment
  rendering and the check-run emission protocol.

JavaScript numbers are modelled as `ℚ` where division occurs (coverage
percentages) and as `Nat`/`Int` for counts and thresholds.  Fallible
methods are modelled with `Except String`, carrying the thrown message.
Network effects (octokit calls) are modelled as values describing the
calls the code would issue.
-/

deriving instance DecidableEq for Except

/-! ## Data model (`third-party-types/lcov-parse.ts`)

Only the fields the program reads are embedded: `LcovEntry.title`,
`branches` and `functions` are never consulted by any code under
verification. -/

structure LineDetail where
  line : Nat
  hit : Nat
deriving DecidableEq, Repr

structure Lines where
  found : Nat
  hit : Nat
  details : List LineDetail
deriving DecidableEq, Repr

structure LcovEntry where
  file : String
  lines : Lines
deriving DecidableEq, Repr

abbrev LcovData := List LcovEntry

/-- `Report` from `reporter.ts`. -/
structure Report where
  percentage : ℚ
  files : LcovData
deriving DecidableEq, Repr

namespace Reporter

/-- The `found` accumulator of the loop in `Reporter.toReport`. -/
def totalFound (data : LcovData) : Nat :=
  (data.map (fun e => e.lines.found)).sum

/-- The `hit` accumulator of the loop in `Reporter.toReport`. -/
def totalHit (data : LcovData) : Nat :=
  (data.map (fun e => e.lines.hit)).sum

/-- `Reporter.toReport` (`reporter.ts` lines 34–50):
`empty = found === 0`, `percentage = empty ? 0 : (hit / found) * 100`,
`files = empty ? [] : data`. -/
def toReport (data : LcovData) : Report :=
  if totalFound data = 0 then
    { percentage := 0, files := [] }
  else
    { percentage := ((totalHit data : ℚ) / (totalFound data : ℚ)) * 100,
      files := data }

end Reporter

/-! ## Coverage wrapper (`coverage.ts`) -/

/-- The `Line` interface of `coverage.ts` (`{file, number}`). -/
structure Line where
  file : String
  number : Nat
deriving DecidableEq, Repr

namespace Coverage

def getPercentage (r : Report) : ℚ :=
  r.percentage

/-- `Coverage.getUncoveredLines`:
`files.filter(found > hit).flatMap(details.filter(hit === 0).map(...))`. -/
def getUncoveredLines (r : Report) : List Line :=
  (r.files.filter (fun file => file.lines.found > file.lines.hit)).flatMap
    (fun file =>
      (file.lines.details.filter (fun detail => detail.hit == 0)).map
        (fun detail => { file := file.file, number := detail.line }))

/-- `Coverage.isEmpty`: `files.length === 0`. -/
def isEmpty (r : Report) : Bool :=
  r.files.length == 0

/-- `Coverage.isPassThreshold`: `isEmpty() || percentage >= threshold`. -/
def isPassThreshold (r : Report) (threshold : ℚ) : Bool :=
  isEmpty r || r.percentage ≥ threshold

end Coverage

/-! ## Settings (`settings.ts`) -/

namespace Settings

/-- Model of JavaScript `parseInt(input, 10)`: skip leading whitespace,
read an optional sign, then the longest leading digit run; `NaN` (here
`none`) when that run is empty. -/
def parseIntJS (s : String) : Option Int :=
  let cs := s.toList.dropWhile (fun c => c.isWhitespace)
  let signAndRest : Int × List Char :=
    match cs with
    | '-' :: rest => (-1, rest)
    | '+' :: rest => (1, rest)
    | _ => (1, cs)
  let digits := signAndRest.2.takeWhile (fun c => c.isDigit)
  if digits.isEmpty then
    none
  else
    some (signAndRest.1 * (digits.foldl (fun a c => a * 10 + (c.toNat - '0'.toNat)) 0 : Nat))

/-- `Settings.DEFAULT_MIN_THRESHOLD` (the process-wide configurable
default; `readMinThreshold` below takes the current value as an explicit
argument). -/
def DEFAULT_MIN_THRESHOLD : Int := 100

/-- `Settings.readMinThreshold` (`settings.ts` lines 43–56): parse the
input; `NaN` yields the default; negative and `> 100` values throw;
otherwise the parsed value is returned. -/
def readMinThreshold (input : String) (defaultMinThreshold : Int) : Except String Int :=
  match parseIntJS input with
  | none => Except.ok defaultMinThreshold
  | some threshold =>
    if threshold < 0 then
      Except.error "\"min_threshold\" cannot be negative"
    else if threshold > 100 then
      Except.error "\"min_threshold\" cannot be greater then 100"
    else
      Except.ok threshold

end Settings

/-! ## Formatter (`formatter.ts`) -/

namespace formatter

/-- Model of `Number(percentage.toFixed(2)) + '%'` on an exact rational:
round to two decimal places, then print without trailing zeros. -/
def percentage (q : ℚ) : String :=
  let scaled : Int := round (q * 100)
  let sign := if scaled < 0 then "-" else ""
  let n := scaled.natAbs
  let ip := n / 100
  let fp := n % 100
  let frac :=
    if fp = 0 then ""
    else if fp % 10 = 0 then "." ++ toString (fp / 10)
    else "." ++ (if fp < 10 then "0" else "") ++ toString fp
  sign ++ toString ip ++ frac ++ "%"

end formatter

/-! ## GitHub reporting façade (`gh-reporter.ts`, `useCoverage` variant) -/

/-- The `PRFile` interface (`{name, status}`). -/
structure PRFile where
  name : String
  status : String
deriving DecidableEq, Repr

inductive AnnotationLevel where
  | failure
  | notice
  | warning
deriving DecidableEq, Repr

/-- The `Annotation` interface of `gh-reporter.ts`. -/
structure Annotation where
  path : String
  start_line : Nat
  end_line : Nat
  annotation_level : AnnotationLevel
  message : String
deriving DecidableEq, Repr

namespace icons

def positive : String := "💚"

def negative : String := "💔"

end icons

/-- Drop the first occurrence of `pat` from `s`, or `none` when `pat`
does not occur. -/
def dropFirstOcc (pat : List Char) : List Char → Option (List Char)
  | [] => if pat.isEmpty then some [] else none
  | c :: rest =>
    if pat.isPrefixOf (c :: rest) then some ((c :: rest).drop pat.length)
    else (dropFirstOcc pat rest).map (fun cs => c :: cs)

/-- JavaScript `s.replace(pat, '')` with a plain-string pattern: remove
the first occurrence of `pat` from `s` (the string is returned unchanged
when `pat` does not occur). -/
def replaceFirst (s pat : String) : String :=
  match dropFirstOcc pat.toList s.toList with
  | none => s
  | some cs => String.mk cs

inductive Conclusion where
  | success
  | failure
deriving DecidableEq, Repr

/-- The `output` object of a `checks.create` / `checks.update` call. -/
structure CheckOutput where
  title : String
  summary : String
  annotations : List Annotation
deriving DecidableEq, Repr

/-- One octokit `checks.*` call issued by `sendCheck`, recording the
fields the code computes. -/
inductive CheckCall where
  | create (name : String) (conclusion : Conclusion) (output : Option CheckOutput)
  | update (output : CheckOutput)
deriving DecidableEq, Repr

namespace GithubReporter

/-- The mutable fields of `GithubReporter`: `threshold`, the nullable
`coverage`, and the cached `coverageAnnotations`. -/
structure State where
  threshold : ℚ
  coverage : Option Report
  coverageAnnotations : List Annotation
deriving DecidableEq, Repr

/-- The constructor: `coverage = null`, `coverageAnnotations = []`. -/
def init (threshold : ℚ) : State :=
  { threshold := threshold, coverage := none, coverageAnnotations := [] }

/-- `removeBasename` inside `getAnnotations`:
`path.replace(process.cwd() + '/', '')`. -/
def removeBasename (cwd : String) (p : String) : String :=
  replaceFirst p (cwd ++ "/")

/-- `GithubReporter.getAnnotations` (the fetched PR changed-file list is
the `files` argument): strip the working-directory prefix from each
uncovered line's file, keep the line only if a `PRFile` with that name
exists, build a failure annotation per kept line, then append the
`(i/N)` ordinal to every message. -/
def getAnnotations (cwd : String) (files : List PRFile) (coverage : Report) : List Annotation :=
  let base : List Annotation :=
    (Coverage.getUncoveredLines coverage).flatMap
      (fun line =>
        let path := removeBasename cwd line.file
        match files.find? (fun f => f.name == path) with
        | none => []
        | some _ =>
          [{ path := path,
             start_line := line.number,
             end_line := line.number,
             annotation_level := AnnotationLevel.failure,
             message := "Uncovered line" }])
  base.enum.map
    (fun p =>
      { p.2 with
        message := p.2.message ++ " (" ++ toString (p.1 + 1) ++ "/" ++ toString base.length ++ ")" })

/-- `useCoverage`: bind the coverage and cache its annotations (the
internal `fetchPRFiles` result is the `files` argument). -/
def useCoverage (st : State) (cwd : String) (files : List PRFile) (coverage : Report) : State :=
  { st with coverage := some coverage, coverageAnnotations := getAnnotations cwd files coverage }

/-- `getCoverage`: throws `Coverage is not setup` while `coverage` is
still `null`. -/
def getCoverage (st : State) : Except String Report :=
  match st.coverage with
  | none => Except.error "Coverage is not setup"
  | some c => Except.ok c

/-- `isPRCoverageOk`: `coverageAnnotations.length === 0`. -/
def isPRCoverageOk (st : State) : Bool :=
  st.coverageAnnotations.length == 0

/-- `isNoCodeToCover`: `getCoverage().isEmpty()`. -/
def isNoCodeToCover (st : State) : Except String Bool := do
  pure (Coverage.isEmpty (← getCoverage st))

def getStatusIcon (st : State) : String :=
  if isPRCoverageOk st then icons.positive else icons.negative

def getStatusMessage (st : State) : Except String String := do
  if (← isNoCodeToCover st) then
    pure "No code to cover."
  else if !isPRCoverageOk st then
    pure "PR contains uncovered code!"
  else
    pure "All code covered!"

def getStatusHeader (st : State) : String :=
  "### Coverage report " ++ getStatusIcon st

def getStatusFooter (st : State) : Except String String := do
  let coverage ← getCoverage st
  pure ("> _Current: " ++ formatter.percentage (Coverage.getPercentage coverage) ++
    ". Required: " ++ formatter.percentage st.threshold ++ "_")

def getWorkflowMessage (st : State) : Except String String := do
  pure (getStatusIcon st ++ " " ++ (← getStatusMessage st))

def getCoverageComment (st : State) : Except String String := do
  pure (String.intercalate "\n"
    ["<!-- coverage-report -->",
     getStatusHeader st,
     (← getStatusMessage st),
     (← getStatusFooter st)])

/-- `sendCoverageComment`: outside a pull-request context a
`ContextError` is thrown; otherwise the comment body (the payload of the
`issues.createComment` call) is produced. -/
def sendCoverageComment (st : State) (isPullRequest : Bool) : Except String String :=
  if !isPullRequest then
    Except.error "Coverage comment supports only in pull_request workflow"
  else
    getCoverageComment st

/-- One step of the chunking `reduce` in `sendCheck`: the JS callback
mutates the last chunk in place when it has room, otherwise starts a new
one. -/
def addToChunks (acc : List (List Annotation)) (a : Annotation) : List (List Annotation) :=
  match acc.getLast? with
  | none => [[a]]
  | some chunk =>
    if chunk.length < 50 then acc.dropLast ++ [chunk ++ [a]]
    else acc ++ [[a]]

/-- `sendCheck` as the list of `checks.*` calls it issues: a single
success creation when there are no annotations, otherwise a failure
creation with the first chunk followed by one update per remaining
chunk. -/
def sendCheck (anns : List Annotation) : List CheckCall :=
  if anns.length = 0 then
    [CheckCall.create "Coverage report" Conclusion.success none]
  else
    let chunks := anns.foldl addToChunks []
    match chunks with
    | [] => []
    | first :: rest =>
      CheckCall.create "Coverage report" Conclusion.failure
        (some { title := "PR coverage check",
                summary := toString anns.length ++ " error(s) found",
                annotations := first })
        :: rest.map
          (fun chunk =>
            CheckCall.update
              { title := "PR coverage check",
                summary := toString anns.length ++ " error(s) found",
                annotations := chunk })

/-- `sendCheck` as invoked on the façade state (its body reads only the
cached `coverageAnnotations`, never `getCoverage`); the `Except` layer
mirrors the `Promise` type of the method, which can only reject from
the modelled-away network layer. -/
def sendCheckR (st : State) : Except String (List CheckCall) :=
  Except.ok (sendCheck st.coverageAnnotations)

/-- `sendReport`: `Promise.all` starts both effects; each half fails or
succeeds independently. -/
def sendReport (st : State) (isPullRequest : Bool) :
    Except String String × Except String (List CheckCall) :=
  (sendCoverageComment st isPullRequest, sendCheckR st)

end GithubReporter

/-! ## Specification-side definitions

These follow the wording of the specification (not the code) and are
compared against the code-side definitions above. -/

/-- Specification wording for `getUncoveredLines`: only lines with
`hit == 0` in files where `found > hit`, ordered by the file's position
in the original report and then by ascending line number within the
file (expressed by sorting each file's contribution). -/
def uncoveredLinesSpec (r : Report) : List Line :=
  (r.files.filter (fun file => file.lines.found > file.lines.hit)).flatMap
    (fun file =>
      (List.insertionSort (· ≤ ·)
        ((file.lines.details.filter (fun detail => detail.hit == 0)).map
          (fun detail => detail.line))).map
        (fun n => { file := file.file, number := n }))

/-- Whether an uncovered line survives the PR changed-file filter: some
`PRFile`'s name equals the line's working-directory-stripped path. -/
def keepLine (cwd : String) (files : List PRFile) (line : Line) : Bool :=
  files.any (fun f => f.name == GithubReporter.removeBasename cwd line.file)

/-- Specification wording for the annotation derivation: keep exactly
the uncovered lines whose stripped path names a fetched `PRFile`; the
i-th surviving line (1-indexed) becomes one failure annotation with
`start_line = end_line = number` and message `Uncovered line (i/N)`,
`N` being the total count after filtering. -/
def annotationsSpec (cwd : String) (files : List PRFile) (coverage : Report) : List Annotation :=
  let kept := (Coverage.getUncoveredLines coverage).filter (keepLine cwd files)
  kept.enum.map
    (fun p =>
      { path := GithubReporter.removeBasename cwd p.2.file,
        start_line := p.2.number,
        end_line := p.2.number,
        annotation_level := AnnotationLevel.failure,
        message := "Uncovered line (" ++ toString (p.1 + 1) ++ "/" ++ toString kept.length ++ ")" })

/-- Fuel-indexed chunking helper (the fuel is an upper bound on the list
length, so the recursion is structural and kernel-reducible). -/
def chunksGo {α : Type _} : Nat → List α → List (List α)
  | _, [] => []
  | 0, _ :: _ => []
  | n + 1, a :: l => (a :: l.take 49) :: chunksGo n (l.drop 49)

/-- Specification wording for the check-run batching: the partition of a
list into consecutive chunks of (at most) 50 elements, in order. -/
def chunksOf50 {α : Type _} (l : List α) : List (List α) :=
  chunksGo l.length l

/-- Specification wording for `sendCheck`: zero annotations give one
success creation; otherwise a failure creation carrying the first chunk
of the at-most-50 partition and a summary with the total error count,
then one update per remaining chunk carrying exactly that chunk. -/
def sendCheckSpec (anns : List Annotation) : List CheckCall :=
  if anns = [] then
    [CheckCall.create "Coverage report" Conclusion.success none]
  else
    match chunksOf50 anns with
    | [] => []
    | first :: rest =>
      CheckCall.create "Coverage report" Conclusion.failure
        (some { title := "PR coverage check",
                summary := toString anns.length ++ " error(s) found",
                annotations := first })
        :: rest.map
          (fun chunk =>
            CheckCall.update
              { title := "PR coverage check",
                summary := toString anns.length ++ " error(s) found",
                annotations := chunk })

/-! ## Concrete example inputs (used by witnesses and counterexamples) -/

/-- The `{found: 4, hit: 1}` report of the spec's end-to-end example. -/
def dataQuarter : LcovData :=
  [{ file := "src/a.ts",
     lines := { found := 4, hit := 1,
                details := [⟨1, 1⟩, ⟨2, 0⟩, ⟨3, 0⟩, ⟨4, 0⟩] } }]

/-- A structurally non-empty entry list in which every entry has
`lines.found = 0`. -/
def dataAllZero : LcovData :=
  [{ file := "src/a.ts", lines := { found := 0, hit := 0, details := [⟨1, 0⟩] } }]

/-- A parsed report whose details are listed in ascending line order;
the second file has `found = hit` yet a `hit = 0` detail entry. -/
def reportSorted : Report :=
  Reporter.toReport
    [{ file := "src/a.ts",
       lines := { found := 3, hit := 1, details := [⟨1, 0⟩, ⟨2, 1⟩, ⟨3, 0⟩] } },
     { file := "src/b.ts",
       lines := { found := 2, hit := 2, details := [⟨4, 0⟩] } }]

/-- A report whose single file lists its `hit = 0` details out of
ascending line order (line 5 before line 3). -/
def reportUnsorted : Report :=
  { percentage := 0,
    files := [{ file := "src/a.ts",
                lines := { found := 2, hit := 0, details := [⟨5, 0⟩, ⟨3, 0⟩] } }] }

/-- 120 annotations, as in the spec's batching example. -/
def anns120 : List Annotation :=
  (List.range 120).map
    (fun i =>
      { path := "src/a.ts", start_line := i + 1, end_line := i + 1,
        annotation_level := AnnotationLevel.failure, message := "Uncovered line" })

/-- A coverage aggregate with one uncovered line in `proj/a.ts`. -/
def reportC8 : Report :=
  Reporter.toReport
    [{ file := "proj/a.ts", lines := { found := 2, hit := 1, details := [⟨1, 0⟩, ⟨2, 1⟩] } }]

/-- A PR changed-file list containing the uncovered file of `reportC8`. -/
def prFilesWith : List PRFile :=
  [{ name := "proj/a.ts", status := "modified" }]

/-- A PR changed-file list not containing that file. -/
def prFilesWithout : List PRFile :=
  []

/-- A second PR changed-file list that also contains the uncovered file
of `reportC8`, plus an unrelated file. -/
def prFilesWithMore : List PRFile :=
  [{ name := "other.ts", status := "added" },
   { name := "proj/a.ts", status := "modified" }]

/-! ## Theorems -/

/-- C1: for every report whose total found line count is positive, the
parsed report's percentage equals `100 * (sum of hit lines) / (sum of
found lines)`, a single ratio across all files. -/
theorem toReport_percentage_single_ratio (data : LcovData)
    (h : 0 < Reporter.totalFound data) :
    (Reporter.toReport data).percentage =
      100 * (Reporter.totalHit data : ℚ) / (Reporter.totalFound data : ℚ) := by
  unfold Reporter.toReport
  rw [if_neg (by omega)]
  ring

/-- Witness for C1: the spec's `{found: 4, hit: 1}` example evaluates to
a 25% single-ratio percentage. -/
theorem toReport_percentage_single_ratio_witness :
    0 < Reporter.totalFound dataQuarter ∧
      (Reporter.toReport dataQuarter).percentage =
        100 * (Reporter.totalHit dataQuarter : ℚ) / (Reporter.totalFound dataQuarter : ℚ) :=
  ⟨by decide, toReport_percentage_single_ratio dataQuarter (by decide)⟩

/-- C2: a report with zero found lines across all files has
`percentage = 0`, is empty, and passes every threshold; in general
`isPassThreshold t` holds exactly when the report is empty or
`percentage ≥ t`. -/
theorem emptyReport_vacuous_pass (data : LcovData) (t : ℚ)
    (h : Reporter.totalFound data = 0) :
    (Reporter.toReport data).percentage = 0 ∧
      Coverage.isEmpty (Reporter.toReport data) = true ∧
      Coverage.isPassThreshold (Reporter.toReport data) t = true ∧
      ∀ r : Report,
        (Coverage.isPassThreshold r t = true ↔
          (Coverage.isEmpty r = true ∨ r.percentage ≥ t)) := by
  unfold Reporter.toReport
  rw [if_pos h]
  refine ⟨rfl, rfl, rfl, fun r => ?_⟩
  simp [Coverage.isPassThreshold]

/-- Witness for C2: a non-empty entry list whose only entry has zero
found lines is parsed to an empty, vacuously passing report. -/
theorem emptyReport_vacuous_pass_witness :
    (Reporter.toReport dataAllZero).percentage = 0 ∧
      Coverage.isEmpty (Reporter.toReport dataAllZero) = true ∧
      Coverage.isPassThreshold (Reporter.toReport dataAllZero) 7 = true :=
  ⟨(emptyReport_vacuous_pass dataAllZero 7 (by decide)).1,
   (emptyReport_vacuous_pass dataAllZero 7 (by decide)).2.1,
   (emptyReport_vacuous_pass dataAllZero 7 (by decide)).2.2.1⟩

/-- C9: for entries produced by a compliant lcov parser
(`hit ≤ found` per entry), the computed percentage lies in `[0, 100]`. -/
theorem toReport_percentage_bounds (data : LcovData)
    (h : ∀ e ∈ data, e.lines.hit ≤ e.lines.found) :
    0 ≤ (Reporter.toReport data).percentage ∧
      (Reporter.toReport data).percentage ≤ 100 := by
  unfold Reporter.toReport
  by_cases h0 : Reporter.totalFound data = 0
  · rw [if_pos h0]
    norm_num
  · rw [if_neg h0]
    have hfpos : (0 : ℚ) < (Reporter.totalFound data : ℚ) := by
      exact_mod_cast Nat.pos_of_ne_zero h0
    have hle : (Reporter.totalHit data : ℚ) ≤ (Reporter.totalFound data : ℚ) := by
      exact_mod_cast
        List.sum_le_sum (fun e he => h e he :
          ∀ e ∈ data, e.lines.hit ≤ e.lines.found)
    constructor
    · have h1 : (0 : ℚ) ≤ (Reporter.totalHit data : ℚ) / (Reporter.totalFound data : ℚ) :=
        div_nonneg (by positivity) (le_of_lt hfpos)
      nlinarith
    · have h1 : (Reporter.totalHit data : ℚ) / (Reporter.totalFound data : ℚ) ≤ 1 :=
        (div_le_one hfpos).mpr hle
      nlinarith

/-- Witness for C9: the `{found: 4, hit: 1}` report has percentage
inside `[0, 100]`. -/
theorem toReport_percentage_bounds_witness :
    0 ≤ (Reporter.toReport dataQuarter).percentage ∧
      (Reporter.toReport dataQuarter).percentage ≤ 100 :=
  toReport_percentage_bounds dataQuarter (by decide)

/-- C10: the parsed report is empty exactly when the summed found count
over all parsed entries is zero — `toReport` clears the file list
whenever total found is 0 and keeps the (then necessarily non-empty)
list otherwise; in particular every entry having `lines.found = 0`
yields `{percentage := 0, files := []}` even for a structurally
non-empty entry list, which therefore passes every threshold. -/
theorem toReport_zeroFound_clears_files (data : LcovData) :
    (Coverage.isEmpty (Reporter.toReport data) = true ↔ Reporter.totalFound data = 0) ∧
      ((∀ e ∈ data, e.lines.found = 0) →
        Reporter.toReport data = { percentage := 0, files := [] } ∧
        ∀ t : ℚ, Coverage.isPassThreshold (Reporter.toReport data) t = true) := by
  constructor
  · unfold Reporter.toReport
    by_cases h0 : Reporter.totalFound data = 0
    · rw [if_pos h0]
      simp [Coverage.isEmpty, h0]
    · rw [if_neg h0]
      simp only [Coverage.isEmpty]
      constructor
      · intro hlen
        exfalso
        apply h0
        have hdata : data = [] := by
          simpa [List.length_eq_zero] using hlen
        subst hdata
        rfl
      · intro h
        exact absurd h h0
  · intro h
    have h0 : Reporter.totalFound data = 0 := by
      unfold Reporter.totalFound
      rw [List.sum_eq_zero_iff]
      intro x hx
      rw [List.mem_map] at hx
      obtain ⟨e, he, rfl⟩ := hx
      exact h e he
    unfold Reporter.toReport
    rw [if_pos h0]
    exact ⟨rfl, fun t => rfl⟩

/-- Witness for C10: a non-empty entry list with all-zero found counts
yields the empty report and passes threshold 99, while a report with
positive total found is not empty. -/
theorem toReport_zeroFound_clears_files_witness :
    dataAllZero ≠ [] ∧
      (Coverage.isEmpty (Reporter.toReport dataAllZero) = true ↔
        Reporter.totalFound dataAllZero = 0) ∧
      Reporter.toReport dataAllZero = { percentage := 0, files := [] } ∧
      Coverage.isPassThreshold (Reporter.toReport dataAllZero) 99 = true ∧
      Coverage.isEmpty (Reporter.toReport dataQuarter) ≠ true :=
  ⟨by decide,
   (toReport_zeroFound_clears_files dataAllZero).1,
   ((toReport_zeroFound_clears_files dataAllZero).2 (by decide)).1,
   ((toReport_zeroFound_clears_files dataAllZero).2 (by decide)).2 99,
   fun hempty =>
     absurd ((toReport_zeroFound_clears_files dataQuarter).1.mp hempty) (by decide)⟩

/-- C6: `-1` and `101` are rejected, `0` and `100` are accepted, a
non-numeric input yields the configurable default (itself defaulting to
100), and every input parsing outside `[0, 100]` is rejected. -/
theorem readMinThreshold_validation (d : Int) (s : String) :
    Settings.readMinThreshold "-1" d =
        Except.error "\"min_threshold\" cannot be negative" ∧
      Settings.readMinThreshold "101" d =
        Except.error "\"min_threshold\" cannot be greater then 100" ∧
      Settings.readMinThreshold "0" d = Except.ok 0 ∧
      Settings.readMinThreshold "100" d = Except.ok 100 ∧
      Settings.DEFAULT_MIN_THRESHOLD = 100 ∧
      (Settings.parseIntJS s = none → Settings.readMinThreshold s d = Except.ok d) ∧
      ∀ t : Int, Settings.parseIntJS s = some t → (t < 0 ∨ 100 < t) →
        (Settings.readMinThreshold s d).isOk = false := by
  refine ⟨rfl, rfl, rfl, rfl, rfl, ?_, ?_⟩
  · intro hnone
    unfold Settings.readMinThreshold
    rw [hnone]
  · intro t ht hout
    unfold Settings.readMinThreshold
    rw [ht]
    dsimp only
    rcases hout with hneg | hbig
    · rw [if_pos hneg]
      rfl
    · rw [if_neg (by omega), if_pos hbig]
      rfl

/-- Witness for C6: `"abc"` falls back to the default 42; `"999"` parses
to 999 and is rejected. -/
theorem readMinThreshold_validation_witness :
    Settings.readMinThreshold "abc" 42 = Except.ok 42 ∧
      (Settings.readMinThreshold "999" 0).isOk = false :=
  ⟨(readMinThreshold_validation 42 "abc").2.2.2.2.2.1 (by decide),
   (readMinThreshold_validation 0 "999").2.2.2.2.2.2 999 (by decide) (Or.inr (by decide))⟩

/-- One file's contribution to `getUncoveredLines` agrees with the
sorted specification wording whenever its details are already listed in
ascending line order. -/
theorem perFile_uncovered_sorted (name : String) (details : List LineDetail)
    (h : List.Sorted (· ≤ ·) (details.map (fun detail => detail.line))) :
    (details.filter (fun detail => detail.hit == 0)).map
        (fun detail => ({ file := name, number := detail.line } : Line)) =
      (List.insertionSort (· ≤ ·)
        ((details.filter (fun detail => detail.hit == 0)).map
          (fun detail => detail.line))).map
        (fun n => ({ file := name, number := n } : Line)) := by
  have hsub :
      ((details.filter (fun detail => detail.hit == 0)).map
          (fun detail => detail.line)).Sublist
        (details.map (fun detail => detail.line)) :=
    List.Sublist.map _ (List.filter_sublist details)
  have hs :
      List.Sorted (· ≤ ·)
        ((details.filter (fun detail => detail.hit == 0)).map
          (fun detail => detail.line)) :=
    List.Pairwise.sublist hsub h
  rw [hs.insertionSort_eq, List.map_map]
  rfl

/-- C3 (amended): for a report whose per-file details are listed in
ascending line order, `getUncoveredLines` returns exactly the `hit = 0`
lines of files with `found > hit`, ordered by file position and then by
ascending line number (the sorted specification wording). -/
theorem getUncoveredLines_matches_spec (r : Report)
    (h : ∀ f ∈ r.files,
      List.Sorted (· ≤ ·) (f.lines.details.map (fun detail => detail.line))) :
    Coverage.getUncoveredLines r = uncoveredLinesSpec r := by
  unfold Coverage.getUncoveredLines uncoveredLinesSpec
  have main :
      ∀ l : List LcovEntry,
        (∀ f ∈ l,
          List.Sorted (· ≤ ·) (f.lines.details.map (fun detail => detail.line))) →
        (l.filter (fun file => file.lines.found > file.lines.hit)).flatMap
            (fun file =>
              (file.lines.details.filter (fun detail => detail.hit == 0)).map
                (fun detail => ({ file := file.file, number := detail.line } : Line))) =
          (l.filter (fun file => file.lines.found > file.lines.hit)).flatMap
            (fun file =>
              (List.insertionSort (· ≤ ·)
                ((file.lines.details.filter (fun detail => detail.hit == 0)).map
                  (fun detail => detail.line))).map
                (fun n => ({ file := file.file, number := n } : Line))) := by
    intro l hl
    induction l with
    | nil => rfl
    | cons a l ih =>
      have ha := hl a (List.mem_cons_self a l)
      have ihl := ih (fun f hf => hl f (List.mem_cons_of_mem a hf))
      by_cases hcov : a.lines.found > a.lines.hit
      · rw [List.filter_cons_of_pos (by simpa using hcov),
          List.flatMap_cons, List.flatMap_cons, ihl,
          perFile_uncovered_sorted a.file a.lines.details ha]
      · rw [List.filter_cons_of_neg (by simpa using hcov)]
        exact ihl
  exact main r.files h

/-- Counterexample for C3: a file listing its uncovered details out of
ascending order makes `getUncoveredLines` differ from the sorted
specification wording (the code emits line 5 before line 3). -/
theorem getUncoveredLines_order_counterexample :
    Coverage.getUncoveredLines reportUnsorted ≠ uncoveredLinesSpec reportUnsorted := by
  decide

/-- Witness for C3: on a report with ascending details — including a
`found = hit` file whose `hit = 0` detail entry is skipped — the code
and the sorted specification wording agree. -/
theorem getUncoveredLines_matches_spec_witness :
    (∀ f ∈ reportSorted.files,
        List.Sorted (· ≤ ·) (f.lines.details.map (fun detail => detail.line))) ∧
      Coverage.getUncoveredLines reportSorted = uncoveredLinesSpec reportSorted :=
  ⟨by decide, getUncoveredLines_matches_spec reportSorted (by decide)⟩

/-- The `find?`-guarded `flatMap` of `getAnnotations` is a filter by
`keepLine` followed by a map. -/
theorem flatMap_find_guard (cwd : String) (files : List PRFile) :
    ∀ ls : List Line,
      (ls.flatMap (fun line =>
        match files.find? (fun f => f.name == GithubReporter.removeBasename cwd line.file) with
        | none => []
        | some _ =>
          [({ path := GithubReporter.removeBasename cwd line.file,
              start_line := line.number,
              end_line := line.number,
              annotation_level := AnnotationLevel.failure,
              message := "Uncovered line" } : Annotation)])) =
      (ls.filter (keepLine cwd files)).map
        (fun line =>
          ({ path := GithubReporter.removeBasename cwd line.file,
             start_line := line.number,
             end_line := line.number,
             annotation_level := AnnotationLevel.failure,
             message := "Uncovered line" } : Annotation)) := by
  intro ls
  induction ls with
  | nil => rfl
  | cons a ls ih =>
    rw [List.flatMap_cons, List.filter_cons]
    cases hf : files.find? (fun f => f.name == GithubReporter.removeBasename cwd a.file) with
    | none =>
      have hk : keepLine cwd files a = false := by
        rw [keepLine, List.any_eq_false]
        intro x hx
        simpa using List.find?_eq_none.mp hf x hx
      simp only [hf, hk, Bool.false_eq_true, if_false]
      simpa using ih
    | some v =>
      have hk : keepLine cwd files a = true := by
        rw [keepLine, List.any_eq_true]
        have hp := List.find?_some hf
        exact ⟨v, List.mem_of_find?_eq_some hf, hp⟩
      simp only [hf, hk, if_true]
      simpa using ih

/-- C4: the annotation derivation emits exactly one failure annotation
per uncovered line whose stripped path names a fetched `PRFile` (none
for absent files), with `start_line = end_line = number` and message
`Uncovered line (i/N)` over the post-filter count. -/
theorem getAnnotations_matches_spec (cwd : String) (files : List PRFile) (coverage : Report) :
    GithubReporter.getAnnotations cwd files coverage = annotationsSpec cwd files coverage := by
  unfold GithubReporter.getAnnotations annotationsSpec
  dsimp only
  rw [flatMap_find_guard cwd files (Coverage.getUncoveredLines coverage),
    List.enum_map, List.map_map, List.length_map]
  apply List.map_congr_left
  intro p hp
  cases p with
  | mk i line =>
    dsimp [Function.comp, Prod.map]

theorem chunksGo_nil {α : Type _} (n : Nat) : chunksGo n ([] : List α) = [] := by
  cases n <;> rfl

/-- The fuel of `chunksGo` is irrelevant once it bounds the length. -/
theorem chunksGo_congr {α : Type _} :
    ∀ (n m : Nat) (l : List α), l.length ≤ n → l.length ≤ m →
      chunksGo n l = chunksGo m l := by
  intro n
  induction n with
  | zero =>
    intro m l hn _
    have : l = [] := by
      cases l with
      | nil => rfl
      | cons a l => simp at hn
    subst this
    rw [chunksGo_nil, chunksGo_nil]
  | succ n ih =>
    intro m l hn hm
    cases l with
    | nil => rw [chunksGo_nil, chunksGo_nil]
    | cons a l =>
      cases m with
      | zero => simp at hm
      | succ m =>
        show (a :: l.take 49) :: chunksGo n (l.drop 49) =
          (a :: l.take 49) :: chunksGo m (l.drop 49)
        have hlen : (l.drop 49).length ≤ l.length := by
          rw [List.length_drop]
          omega
        rw [ih m (l.drop 49) (by simp at hn ⊢; omega) (by simp at hm ⊢; omega)]

theorem chunksOf50_nil {α : Type _} : chunksOf50 ([] : List α) = [] := rfl

theorem chunksOf50_cons {α : Type _} (a : α) (l : List α) :
    chunksOf50 (a :: l) = (a :: l.take 49) :: chunksOf50 (l.drop 49) := by
  show chunksGo (l.length + 1) (a :: l) = _
  show (a :: l.take 49) :: chunksGo l.length (l.drop 49) = _
  unfold chunksOf50
  rw [chunksGo_congr l.length (l.drop 49).length (l.drop 49)
    (by rw [List.length_drop]; omega) le_rfl]

/-- Concatenating the chunks returns the original list. -/
theorem chunksOf50_flatten {α : Type _} (l : List α) : (chunksOf50 l).flatten = l := by
  suffices H : ∀ (n : Nat) (l : List α), l.length ≤ n → (chunksOf50 l).flatten = l from
    H l.length l le_rfl
  intro n
  induction n with
  | zero =>
    intro l h
    cases l with
    | nil => rfl
    | cons a l => simp at h
  | succ n ih =>
    intro l h
    cases l with
    | nil => rfl
    | cons a l =>
      rw [chunksOf50_cons, List.flatten_cons,
        ih (l.drop 49) (by rw [List.length_drop]; simp at h; omega)]
      rw [List.cons_append, List.take_append_drop]

/-- Every chunk holds at most 50 elements. -/
theorem chunksOf50_le {α : Type _} (l : List α) :
    ∀ c ∈ chunksOf50 l, c.length ≤ 50 := by
  suffices H : ∀ (n : Nat) (l : List α), l.length ≤ n →
      ∀ c ∈ chunksOf50 l, c.length ≤ 50 from H l.length l le_rfl
  intro n
  induction n with
  | zero =>
    intro l h c hc
    cases l with
    | nil => simp [chunksOf50_nil] at hc
    | cons a l => simp at h
  | succ n ih =>
    intro l h c hc
    cases l with
    | nil => simp [chunksOf50_nil] at hc
    | cons a l =>
      rw [chunksOf50_cons] at hc
      rcases List.mem_cons.mp hc with rfl | hc
      · simp [List.length_take]
      · exact ih (l.drop 49) (by rw [List.length_drop]; simp at h; omega) c hc

/-- The `reduce` in `sendCheck` computes exactly the at-most-50
partition. -/
theorem foldl_addToChunks (l : List Annotation) :
    ∀ (done : List (List Annotation)) (cur : List Annotation),
      cur ≠ [] → cur.length ≤ 50 →
      List.foldl GithubReporter.addToChunks (done ++ [cur]) l =
        done ++ (cur ++ l.take (50 - cur.length)) :: chunksOf50 (l.drop (50 - cur.length)) := by
  induction l with
  | nil =>
    intro done cur h1 h2
    simp [chunksOf50_nil]
  | cons a l ih =>
    intro done cur h1 h2
    rw [List.foldl_cons]
    have hstep : GithubReporter.addToChunks (done ++ [cur]) a =
        if cur.length < 50 then done ++ [cur ++ [a]] else (done ++ [cur]) ++ [[a]] := by
      unfold GithubReporter.addToChunks
      rw [List.getLast?_concat, List.dropLast_concat]
    by_cases hlt : cur.length < 50
    · rw [hstep, if_pos hlt, ih done (cur ++ [a]) (by simp) (by simp; omega)]
      have h50 : 50 - cur.length = (50 - (cur ++ [a]).length) + 1 := by
        simp
        omega
      rw [h50, List.take_succ_cons, List.drop_succ_cons]
      simp
    · rw [hstep, if_neg hlt, ih (done ++ [cur]) [a] (by simp) (by norm_num)]
      have h50 : 50 - cur.length = 0 := by omega
      rw [h50]
      simp [chunksOf50_cons]

/-- C5: `sendCheck` follows the batching protocol — zero annotations
give one success creation; otherwise the annotations are partitioned
into order-preserving chunks of at most 50, the failure creation
carries the first chunk and a total-error-count summary, and each
remaining chunk is carried by exactly one update. -/
theorem sendCheck_matches_spec (anns : List Annotation) :
    GithubReporter.sendCheck anns = sendCheckSpec anns ∧
      (chunksOf50 anns).flatten = anns ∧
      ∀ c ∈ chunksOf50 anns, c.length ≤ 50 := by
  refine ⟨?_, chunksOf50_flatten anns, chunksOf50_le anns⟩
  cases anns with
  | nil => rfl
  | cons a l =>
    have hfold : List.foldl GithubReporter.addToChunks [] (a :: l) = chunksOf50 (a :: l) := by
      rw [List.foldl_cons,
        show GithubReporter.addToChunks [] a = [] ++ [[a]] from rfl,
        foldl_addToChunks l [] [a] (by simp) (by norm_num)]
      simp [chunksOf50_cons]
    unfold GithubReporter.sendCheck sendCheckSpec
    rw [if_neg (by simp), if_neg (by simp), hfold]

/-- Witness for C5: the spec's 120-annotation example chunks as
50/50/20 and the emitted calls match the protocol. -/
theorem sendCheck_matches_spec_witness :
    GithubReporter.sendCheck anns120 = sendCheckSpec anns120 ∧
      (chunksOf50 anns120).map List.length = [50, 50, 20] :=
  ⟨(sendCheck_matches_spec anns120).1, by decide⟩

/-- Counterexample for C7: on a façade still in the `Uninitialized`
state (`useCoverage` never called), `sendCheck` does not fail — it
reads the cached empty annotation list and issues a success check-run
creation. -/
theorem sendCheck_uninitialized_creates_success :
    GithubReporter.sendCheckR (GithubReporter.init 80) =
      Except.ok [CheckCall.create "Coverage report" Conclusion.success none] := rfl

/-- C7 (amended): in the `Uninitialized` state `getCoverageComment`,
`getWorkflowMessage` and `sendCoverageComment` (in a pull-request
context) all fail with the `Coverage is not setup` `IllegalStateError`,
and `sendReport`'s comment half fails likewise — but `sendCheck`
succeeds, creating a success check from the empty cached annotation
list. -/
theorem uninitialized_reporting_calls (t : ℚ) :
    GithubReporter.getCoverageComment (GithubReporter.init t) =
        Except.error "Coverage is not setup" ∧
      GithubReporter.getWorkflowMessage (GithubReporter.init t) =
        Except.error "Coverage is not setup" ∧
      GithubReporter.sendCoverageComment (GithubReporter.init t) true =
        Except.error "Coverage is not setup" ∧
      GithubReporter.sendReport (GithubReporter.init t) true =
        (Except.error "Coverage is not setup",
         Except.ok [CheckCall.create "Coverage report" Conclusion.success none]) :=
  ⟨rfl, rfl, rfl, rfl⟩

/-- The comment body reads the bound state only through `threshold`,
`coverage` and `isPRCoverageOk`. -/
theorem getCoverageComment_congr (st st' : GithubReporter.State)
    (ht : st.threshold = st'.threshold) (hc : st.coverage = st'.coverage)
    (hb : GithubReporter.isPRCoverageOk st = GithubReporter.isPRCoverageOk st') :
    GithubReporter.getCoverageComment st = GithubReporter.getCoverageComment st' := by
  unfold GithubReporter.getCoverageComment GithubReporter.getStatusHeader
    GithubReporter.getStatusIcon GithubReporter.getStatusMessage
    GithubReporter.isNoCodeToCover GithubReporter.getStatusFooter
    GithubReporter.getCoverage
  rw [ht, hc, hb]

/-- Counterexample for C8: two façades bound to the same coverage
aggregate with the same threshold, differing only in the fetched PR
changed-file list, produce different comment bodies. -/
theorem getCoverageComment_depends_on_prFiles :
    GithubReporter.getCoverageComment
        (GithubReporter.useCoverage (GithubReporter.init 100) "/cwd" prFilesWith reportC8) ≠
      GithubReporter.getCoverageComment
        (GithubReporter.useCoverage (GithubReporter.init 100) "/cwd" prFilesWithout reportC8) := by
  decide

/-- C8 (amended): the comment body is deterministic given the coverage
aggregate, the threshold, and the emptiness of the derived annotation
list — two façades bound to the same aggregate and threshold whose
annotation lists agree on being empty return the identical string,
whatever else (such as the particular PR changed-file lists) differs. -/
theorem getCoverageComment_deterministic (t : ℚ) (cov : Report)
    (cwd1 cwd2 : String) (files1 files2 : List PRFile)
    (h : GithubReporter.getAnnotations cwd1 files1 cov = [] ↔
      GithubReporter.getAnnotations cwd2 files2 cov = []) :
    GithubReporter.getCoverageComment
        (GithubReporter.useCoverage (GithubReporter.init t) cwd1 files1 cov) =
      GithubReporter.getCoverageComment
        (GithubReporter.useCoverage (GithubReporter.init t) cwd2 files2 cov) := by
  apply getCoverageComment_congr
  · rfl
  · rfl
  show ((GithubReporter.getAnnotations cwd1 files1 cov).length == 0) =
    ((GithubReporter.getAnnotations cwd2 files2 cov).length == 0)
  by_cases h1 : GithubReporter.getAnnotations cwd1 files1 cov = []
  · rw [h1, h.mp h1]
  · have h2 : GithubReporter.getAnnotations cwd2 files2 cov ≠ [] := fun hh => h1 (h.mpr hh)
    have e1 : ((GithubReporter.getAnnotations cwd1 files1 cov).length == 0) = false := by
      simp [List.length_eq_zero]
      exact h1
    have e2 : ((GithubReporter.getAnnotations cwd2 files2 cov).length == 0) = false := by
      simp [List.length_eq_zero]
      exact h2
    rw [e1, e2]

/-- Witness for C8: two different changed-file lists that both retain
the uncovered line give the identical comment body. -/
theorem getCoverageComment_deterministic_witness :
    (GithubReporter.getAnnotations "/cwd" prFilesWith reportC8 = [] ↔
        GithubReporter.getAnnotations "/cwd" prFilesWithMore reportC8 = []) ∧
      GithubReporter.getCoverageComment
          (GithubReporter.useCoverage (GithubReporter.init 100) "/cwd" prFilesWith reportC8) =
        GithubReporter.getCoverageComment
          (GithubReporter.useCoverage (GithubReporter.init 100) "/cwd" prFilesWithMore reportC8) :=
  ⟨by decide,
   getCoverageComment_deterministic 100 reportC8 "/cwd" "/cwd" prFilesWith prFilesWithMore
    (by decide)⟩
